import Mathlib

/-!
Verification development for the retrieval-augmented Q&A system.

The definitions below are a shallow embedding of the Python sources:
  src/utils/text_processing.py   (clean_text, chunk_text)
  src/embedding/vector_database.py (VectorDatabase)
  src/embedding/embedding_model.py (EmbeddingModel.similarity)
  src/rag/prompt_manager.py      (PromptManager.format_context)
  src/rag/rag_pipeline.py        (RAGPipeline.answer_question)

Python strings are Lean `String`s (Python `len` = number of code points =
`String.length`).  Numpy floats are embedded as exact rationals `ℚ` where the
code only compares and filters them, and as exact reals `ℝ` for the cosine
similarity math.  Python exceptions are `Except String`.  External library
calls (FAISS search, the sentence-transformer encoder, the LLM) are modelled
as explicit parameters or, for FAISS flat search, as an exact top-k model.
-/

unseal Rat.add Rat.mul Rat.sub Rat.inv Rat.ofScientific

instance {ε α : Type} [DecidableEq ε] [DecidableEq α] : DecidableEq (Except ε α) := fun a b =>
  match a, b with
  | Except.ok x, Except.ok y =>
      if h : x = y then Decidable.isTrue (by rw [h]) else Decidable.isFalse (by simp [h])
  | Except.error e, Except.error f =>
      if h : e = f then Decidable.isTrue (by rw [h]) else Decidable.isFalse (by simp [h])
  | Except.ok _, Except.error _ => Decidable.isFalse (by simp)
  | Except.error _, Except.ok _ => Decidable.isFalse (by simp)

/-! ### Python string helpers -/

/-- The whitespace characters recognised by Python's `str.strip`, `str.split`
and the regex class `\s` (restricted to ASCII; the inputs of interest are
ASCII). -/
def isPyWs (c : Char) : Bool :=
  c = ' ' || c = '\t' || c = '\n' || c = '\r' || c = '\x0b' || c = '\x0c'

/-- Python `str.strip()`: remove leading and trailing whitespace. -/
def pyStrip (s : String) : String :=
  String.mk (((s.data.dropWhile isPyWs).reverse.dropWhile isPyWs).reverse)

/-- Python `str.split()` (no separator): split on whitespace runs, returning
no empty pieces. -/
def pySplitWsAux : List Char → List (List Char)
  | [] => []
  | c :: rest =>
      if isPyWs c then pySplitWsAux rest
      else
        match rest with
        | [] => [[c]]
        | c2 :: _ =>
            if isPyWs c2 then [c] :: pySplitWsAux rest
            else
              match pySplitWsAux rest with
              | p :: ps => (c :: p) :: ps
              | [] => [[c]]

/-- Python `str.split()` on a `String`, producing `String`s. -/
def pySplitWs (s : String) : List String :=
  (pySplitWsAux s.data).map String.mk

/-! ### clean_text  (text_processing.py lines 12-48) -/

/-- Embedding of `re.sub(r'<[^>]+>', '', text)`: remove every span that starts at a `<`,
contains at least one non-`>` character and ends at the first following `>`.
The scanner buffers the characters seen since an unmatched `<`; an unclosed
`<` (or the two-character text `<>`, which the pattern cannot match) is kept
literally, exactly as `re.sub` leaves unmatched positions untouched. -/
def stripTagsAux : List Char → Option (List Char) → List Char
  | [], none => []
  | [], some buf => '<' :: buf.reverse
  | c :: rest, none =>
      if c = '<' then stripTagsAux rest (some [])
      else c :: stripTagsAux rest none
  | c :: rest, some buf =>
      if c = '>' then
        if buf.isEmpty then '<' :: '>' :: stripTagsAux rest none
        else stripTagsAux rest none
      else stripTagsAux rest (some (c :: buf))

def stripTags (l : List Char) : List Char := stripTagsAux l none

/-- Modelled from the Python standard library: `html.unescape` restricted to
the basic named/numeric character references (`&lt;` `&gt;` `&amp;` `&quot;`
`&#39;`); any other text, including unrecognised references, passes through
unchanged.  Every concrete input evaluated in this file uses only these
references or none at all. -/
def htmlUnescape : List Char → List Char
  | '&' :: 'l' :: 't' :: ';' :: rest => '<' :: htmlUnescape rest
  | '&' :: 'g' :: 't' :: ';' :: rest => '>' :: htmlUnescape rest
  | '&' :: 'a' :: 'm' :: 'p' :: ';' :: rest => '&' :: htmlUnescape rest
  | '&' :: 'q' :: 'u' :: 'o' :: 't' :: ';' :: rest => '"' :: htmlUnescape rest
  | '&' :: '#' :: '3' :: '9' :: ';' :: rest => Char.ofNat 39 :: htmlUnescape rest
  | c :: rest => c :: htmlUnescape rest
  | [] => []

/-- The character set matched by one repetition unit of the URL pattern
`http[s]?://(?:[a-zA-Z]|[0-9]|[$-_@.&+]|[!*\\(\\),]|(?:%[0-9a-fA-F][0-9a-fA-F]))+`.
The class `[$-_@.&+]` is the byte range 0x24..0x5F (which already contains
the digits, the uppercase letters, `%` and every hex digit), so the `%hh`
alternative adds nothing and greedy matching is simply the maximal run of
characters from this union. -/
def isUrlChar (c : Char) : Bool :=
  c.isAlpha || ('$' ≤ c && c ≤ '_') ||
  c = '!' || c = '*' || c = '\\' || c = '(' || c = ')' || c = ','

/-- Try to match the URL pattern at the head of the list; on success return
the remainder after the match. -/
def tryUrl (l : List Char) : Option (List Char) :=
  let go : List Char → Option (List Char) := fun after =>
    let run := after.takeWhile isUrlChar
    if run.isEmpty then none else some (after.drop run.length)
  if ['h','t','t','p','s',':','/','/'].isPrefixOf l then
    go (l.drop 8)
  else if ['h','t','t','p',':','/','/'].isPrefixOf l then
    go (l.drop 7)
  else none

/-- Embedding of `re.sub` scan for the URL pattern: at each position try to match; on a
match drop it and continue after it, otherwise keep the character.  The fuel
argument (initialised to the length) only serves structural termination: a
match always consumes at least eight characters, so fuel never runs out. -/
def removeUrlsAux : Nat → List Char → List Char
  | 0, l => l
  | _ + 1, [] => []
  | fuel + 1, c :: rest =>
      match tryUrl (c :: rest) with
      | some remaining => removeUrlsAux fuel remaining
      | none => c :: removeUrlsAux fuel rest

def removeUrls (l : List Char) : List Char := removeUrlsAux l.length l

/-- Word characters for the regex `\b` boundary (`[A-Za-z0-9_]`). -/
def isWordChar (c : Char) : Bool := c.isAlphanum || c = '_'

/-- Local-part characters `[A-Za-z0-9._%+-]` of the email pattern. -/
def isLocalChar (c : Char) : Bool :=
  c.isAlphanum || c = '.' || c = '_' || c = '%' || c = '+' || c = '-'

/-- Domain characters `[A-Za-z0-9.-]` of the email pattern. -/
def isDomChar (c : Char) : Bool := c.isAlphanum || c = '.' || c = '-'

/-- TLD characters `[A-Z|a-z]` of the email pattern (the literal `|` is part
of the class as written in the source). -/
def isTldChar (c : Char) : Bool := c.isAlpha || c = '|'

/-- A `\b` boundary between an optional previous character and a next
character (`none` stands for the start/end of the string, which is
non-word). -/
def atBoundary (prev next : Option Char) : Bool :=
  (match prev with | none => false | some c => isWordChar c) ≠
  (match next with | none => false | some c => isWordChar c)

/-- Backtracking tail of the email match: after the literal `.`, the engine
takes the maximal run of TLD characters and shrinks it (down to the required
two) until the final `\b` holds.  Returns the consumed TLD length. -/
def tldBacktrack (full : List Char) (trun : List Char) : Nat → Option Nat
  | 0 => none
  | t + 1 =>
      if t + 1 < 2 then none
      else
        match trun.get? t with
        | none => tldBacktrack full trun t
        | some last =>
            if atBoundary (some last) ((full.drop (t + 1)).head?) then some (t + 1)
            else tldBacktrack full trun t

/-- Backtracking over the split of the greedy domain run `[A-Za-z0-9.-]+`
into `D+ \. TLD`: the engine tries the longest `D+` first, i.e. the
rightmost `.` inside the run, then matches `[A-Z|a-z]{2,}` greedily followed
by `\b`.  `j` counts down over candidate lengths of the `D+` part. -/
def domBacktrack (dom after : List Char) : Nat → Option (List Char)
  | 0 => none
  | j + 1 =>
      if (dom ++ after).get? (j + 1) = some '.' then
        let full := (dom ++ after).drop (j + 2)
        let trun := full.takeWhile isTldChar
        match tldBacktrack full trun trun.length with
        | some t => some (full.drop t)
        | none => domBacktrack dom after j
      else domBacktrack dom after j

/-- Try to match the email pattern
`\b[A-Za-z0-9._%+-]+@[A-Za-z0-9.-]+\.[A-Z|a-z]{2,}\b` at the head of `l`
(`prev` is the character just before `l` in the original string, used for the
leading `\b`).  On success return the last matched character and the
remainder after the match. -/
def tryEmail (prev : Option Char) (l : List Char) : Option (Char × List Char) :=
  match l with
  | [] => none
  | c :: _ =>
      if isLocalChar c && atBoundary prev (some c) then
        let locRun := l.takeWhile isLocalChar
        match l.drop locRun.length with
        | '@' :: rest2 =>
            let dom := rest2.takeWhile isDomChar
            if dom.isEmpty then none
            else
              match domBacktrack dom (rest2.drop dom.length) dom.length with
              | some remaining =>
                  -- the last matched character is the one right before
                  -- `remaining` inside `rest2`
                  some ((rest2.take (rest2.length - remaining.length)).getLastD '.',
                        remaining)
              | none => none
        | _ => none
      else none

/-- Embedding of `re.sub` scan for the email pattern, tracking the previous character of
the original string for `\b`.  Fuel as in `removeUrlsAux`. -/
def removeEmailsAux : Nat → Option Char → List Char → List Char
  | 0, _, l => l
  | _ + 1, _, [] => []
  | fuel + 1, prev, c :: rest =>
      match tryEmail prev (c :: rest) with
      | some (last, remaining) => removeEmailsAux fuel (some last) remaining
      | none => c :: removeEmailsAux fuel (some c) rest

def removeEmails (l : List Char) : List Char := removeEmailsAux l.length none l

/-- Embedding of `re.sub(r'\s+', ' ', text)`: collapse each maximal whitespace run to one
space (emitted at the end of the run). -/
def collapseWs : List Char → List Char
  | [] => []
  | c :: rest =>
      if isPyWs c then
        match rest with
        | [] => [' ']
        | c2 :: _ => if isPyWs c2 then collapseWs rest else ' ' :: collapseWs rest
      else c :: collapseWs rest

/-- Embedding of `clean_text` (text_processing.py lines 12-48). -/
def clean_text (text : String)
    (remove_html remove_urls remove_emails normalize_whitespace : Bool) : String :=
  if text = "" then ""
  else
    let t1 := if remove_html then String.mk (htmlUnescape (stripTags text.data)) else text
    let t2 := if remove_urls then String.mk (removeUrls t1.data) else t1
    let t3 := if remove_emails then String.mk (removeEmails t2.data) else t2
    if normalize_whitespace then pyStrip (String.mk (collapseWs t3.data)) else t3

/-- Embedding of `clean_text` with all flags at their default `True`, as `chunk_text`
calls it. -/
def cleanTextDefault (text : String) : String := clean_text text true true true true

/-! ### chunk_text  (text_processing.py lines 51-110) -/

/-- Sentence-ending characters of the split pattern `[.!?]+`. -/
def isPunct (c : Char) : Bool := c = '.' || c = '!' || c = '?'

/-- Embedding of `re.split(r'[.!?]+', text)`: pieces between maximal punctuation runs,
including empty leading/trailing pieces (exactly as `re.split` produces
them; they are stripped and filtered away by the caller). -/
def splitPunctAux : List Char → List (List Char)
  | [] => [[]]
  | c :: rest =>
      let r := splitPunctAux rest
      if isPunct c then
        match rest with
        | [] => [] :: r
        | c2 :: _ => if isPunct c2 then r else [] :: r
      else
        match r with
        | p :: ps => (c :: p) :: ps
        | [] => [[c]]

/-- The sentence list of lines 73-74: split on `[.!?]+`, strip each piece,
keep the non-empty ones. -/
def sentencesOf (cleaned : String) : List String :=
  (((splitPunctAux cleaned.data).map String.mk).map pyStrip).filter (fun s => s ≠ "")

/-- The sentence-accumulation loop of lines 76-90.  A chunk is closed when
appending the next sentence would push the running chunk past
`max_chunk_size`; a closed (or final) chunk is kept only when it reaches
`min_chunk_size`. -/
def sentenceLoop (mn mx : Nat) : List String → List String → String → List String
  | [], chunks, cur =>
      if cur ≠ "" ∧ mn ≤ cur.length then chunks ++ [pyStrip cur] else chunks
  | s :: rest, chunks, cur =>
      if mx < cur.length + s.length ∧ cur ≠ "" then
        sentenceLoop mn mx rest
          (if mn ≤ cur.length then chunks ++ [pyStrip cur] else chunks) s
      else
        sentenceLoop mn mx rest chunks (if cur = "" then s else cur ++ " " ++ s)

/-- The word-based fallback loop of lines 94-108.  Note two faithful
quirks: each new chunk is seeded with `current_chunk.split()[-overlap//10:]`,
which for `overlap // 10 == 0` is the whole word list (Python `lst[-0:]` is
`lst[0:]`), and the final chunk is appended whenever non-empty, with no
minimum-size check. -/
def wordLoop (cs co : Nat) : List String → List String → String → List String
  | [], chunks, cur => if cur ≠ "" then chunks ++ [pyStrip cur] else chunks
  | w :: rest, chunks, cur =>
      if cs < cur.length + w.length + 1 ∧ cur ≠ "" then
        let ws := pySplitWs cur
        let n := co / 10
        let ow := if n = 0 then ws else ws.drop (ws.length - n)
        wordLoop cs co rest (chunks ++ [pyStrip cur])
          (String.intercalate " " ow ++ " " ++ w)
      else
        wordLoop cs co rest chunks (if cur = "" then w else cur ++ " " ++ w)

/-- The segmentation phase of `chunk_text` on already-cleaned text: the
sentence pass, falling back to the word pass when it yields at most one
chunk (lines 72-110). -/
def segmentCleaned (cleaned : String)
    (chunk_size chunk_overlap min_chunk_size max_chunk_size : Nat) : List String :=
  let chunks := sentenceLoop min_chunk_size max_chunk_size (sentencesOf cleaned) [] ""
  if chunks.length ≤ 1 then wordLoop chunk_size chunk_overlap (pySplitWs cleaned) [] ""
  else chunks

/-- Embedding of `chunk_text` (text_processing.py lines 51-110): empty input short-cut,
then `clean_text` with default flags, then segmentation. -/
def chunk_text (text : String)
    (chunk_size chunk_overlap min_chunk_size max_chunk_size : Nat) : List String :=
  if text = "" then []
  else segmentCleaned (cleanTextDefault text)
        chunk_size chunk_overlap min_chunk_size max_chunk_size

/-! ### VectorDatabase  (vector_database.py) -/

/-- The metadata keys the modelled code reads (`source`, `title`, `url` in
result formatting; `index` in the default metadata of `add_documents`).
A missing key is `none`. -/
structure Metadata where
  source : Option String
  title : Option String
  url : Option String
  idx : Option Nat
deriving DecidableEq

/-- One entry of the list returned by `search_with_metadata`
(vector_database.py lines 234-241). -/
structure SearchResult where
  index : Int
  text : String
  metadata : Metadata
  similarity : ℚ
  distance : ℚ
  rank : Nat
deriving DecidableEq

/-- The `VectorDatabase` state: configuration plus the FAISS index contents
(`vectors`) and the parallel `documents`/`metadata` arrays. -/
structure VectorDB where
  index_type : String
  top_k : Nat
  similarity_threshold : ℚ
  normalize_L2 : Bool
  vectors : List (List ℚ)
  documents : List String
  metadata : List Metadata
deriving DecidableEq

/-- Python list subscript with negative-index semantics: `l[i]` is
`l[len + i]` for `-len ≤ i < 0`, and out of range otherwise. -/
def pyGet (l : List α) (i : Int) : Option α :=
  if 0 ≤ i then l.get? i.toNat
  else if (-i).toNat ≤ l.length then l.get? (l.length - (-i).toNat)
  else none

/-- Embedding of `get_document` (vector_database.py lines 185-198): rejects
`index >= len(documents)` explicitly, then performs the Python subscripts,
which can themselves raise `IndexError` (in particular for a negative index
on an empty list) or succeed on a negative index. -/
def get_document (db : VectorDB) (index : Int) : Except String (String × Metadata) :=
  if (db.documents.length : Int) ≤ index then
    Except.error "Document index out of range"
  else
    match pyGet db.documents index, pyGet db.metadata index with
    | some d, some m => Except.ok (d, m)
    | _, _ => Except.error "IndexError"

/-- Exact value of `FLT_MAX`: FAISS flat search pads missing results (when
`k` exceeds the number of stored vectors) with label `-1` and distance
`-FLT_MAX` for inner-product indices, `FLT_MAX` for L2 indices. -/
def fltMax : ℚ := 340282346638528859811704183484516925440

/-- Inner product of two embedding vectors. -/
def dotQ (a b : List ℚ) : ℚ := (List.zipWith (fun x y => x * y) a b).sum

/-- Squared L2 distance of two embedding vectors (FAISS `IndexFlatL2`
returns squared distances). -/
def sqDistQ (a b : List ℚ) : ℚ :=
  (List.zipWith (fun x y => (x - y) * (x - y)) a b).sum

/-- Insertion step of the score ordering used to model FAISS result
ranking. -/
def insertScored (better : ℚ → ℚ → Bool) (x : ℚ × Int) :
    List (ℚ × Int) → List (ℚ × Int)
  | [] => [x]
  | y :: ys => if better x.1 y.1 then x :: y :: ys else y :: insertScored better x ys

/-- Sort scored entries by the index metric (insertion sort; FAISS returns
its `k` results ordered by the metric, and no claim depends on tie order). -/
def sortScored (better : ℚ → ℚ → Bool) : List (ℚ × Int) → List (ℚ × Int)
  | [] => []
  | x :: xs => insertScored better x (sortScored better xs)

/-- Model of FAISS flat search: score every stored vector, order by the
metric (inner product descending, or squared L2 ascending), take `k`, and
pad to `k` entries with `(padDist, -1)`. -/
def faissFlatSearch (score : List ℚ → ℚ) (better : ℚ → ℚ → Bool)
    (padDist : ℚ) (vectors : List (List ℚ)) (k : Nat) : List (ℚ × Int) :=
  let scored := (List.range vectors.length).map
    (fun j => (score (vectors.getD j []), (j : Int)))
  let sorted := sortScored better scored
  sorted.take k ++ List.replicate (k - vectors.length) (padDist, -1)

/-- Embedding of `VectorDatabase.search` (lines 141-183).  The query is normalized by
`faiss.normalize_L2` when configured; that float routine is external, so it
is passed in as `norm`.  Python `k = k or self.top_k` treats both `None` and
`0` as absent.  Returns the `(distance, index)` rows of the single query. -/
def vdbSearch (db : VectorDB) (norm : List ℚ → List ℚ) (q : List ℚ)
    (kArg : Option Nat) : List (ℚ × Int) :=
  let k := match kArg with
    | none => db.top_k
    | some k0 => if k0 = 0 then db.top_k else k0
  let q' := if db.normalize_L2 then norm q else q
  if db.index_type = "IndexFlatL2" then
    faissFlatSearch (fun v => sqDistQ q' v) (fun x y => decide (x ≤ y))
      fltMax db.vectors k
  else
    faissFlatSearch (fun v => dotQ q' v) (fun x y => decide (y ≤ x))
      (-fltMax) db.vectors k

/-- The result-assembly loop of `search_with_metadata` (lines 226-246):
skip indices `≥ len(documents)`, fetch text/metadata (which may raise),
convert distance to similarity (`1 - d` for L2, the raw score otherwise),
and keep the result only when the similarity reaches the threshold.
`i` is the running `enumerate` counter; `rank` is `i + 1`. -/
def simOf (db : VectorDB) (dist : ℚ) : ℚ :=
  if db.index_type = "IndexFlatL2" then 1 - dist else dist

def swmLoop (db : VectorDB) : List (ℚ × Int) → Nat → Except String (List SearchResult)
  | [], _ => Except.ok []
  | (dist, index) :: rest, i =>
      if index < (db.documents.length : Int) then
        match get_document db index with
        | Except.error e => Except.error e
        | Except.ok (document, md) =>
            match swmLoop db rest (i + 1) with
            | Except.error e => Except.error e
            | Except.ok rs =>
                if db.similarity_threshold ≤ simOf db dist then
                  Except.ok ({ index := index, text := document, metadata := md,
                               similarity := simOf db dist, distance := dist,
                               rank := i + 1 } :: rs)
                else Except.ok rs
      else swmLoop db rest (i + 1)

/-- Embedding of `VectorDatabase.search_with_metadata` (lines 212-247): search, then
assemble and threshold-filter the results. -/
def search_with_metadata (db : VectorDB) (norm : List ℚ → List ℚ) (q : List ℚ)
    (kArg : Option Nat) : Except String (List SearchResult) :=
  swmLoop db (vdbSearch db norm q kArg) 0

/-- Default metadata `[{"index": i} for i in range(len(documents))]`
(line 113). -/
def defaultMetadata (n : Nat) : List Metadata :=
  (List.range n).map (fun i => { source := none, title := none, url := none, idx := some i })

/-- Embedding of `VectorDatabase.add_documents` (lines 77-139): fail when the document
and embedding counts differ (before any mutation), otherwise normalize the
embeddings when configured, extend the index, and extend the parallel
arrays.  Python `if metadata:` treats an empty list like `None`, creating
default metadata in both cases. -/
def add_documents (db : VectorDB) (documents : List String)
    (embeddings : List (List ℚ)) (metadata : Option (List Metadata))
    (norm : List ℚ → List ℚ) : Except String VectorDB :=
  if documents.length ≠ embeddings.length then
    Except.error "Number of documents must match number of embeddings"
  else
    let embs := if db.normalize_L2 then embeddings.map norm else embeddings
    let newMeta := match metadata with
      | some ms => if ms.isEmpty then defaultMetadata documents.length else ms
      | none => defaultMetadata documents.length
    Except.ok { db with
      vectors := db.vectors ++ embs,
      documents := db.documents ++ documents,
      metadata := db.metadata ++ newMeta }

/-! ### PromptManager.format_context  (prompt_manager.py lines 161-196) -/

/-- Two-decimal rendering of a similarity score, modelling the Python format
specifier `"{:.2f}"` (rounding to the nearest hundredth; the claims proved
here never depend on tie-breaking of the underlying float rendering). -/
def fmt2 (q : ℚ) : String :=
  let scaled : Int := round (q * 100)
  let sign := if scaled < 0 then "-" else ""
  let n := scaled.natAbs
  sign ++ toString (n / 100) ++ "." ++
    (if n % 100 < 10 then "0" else "") ++ toString (n % 100)

/-- One formatted result (line 187):
`f"[Source: {source}, Title: {title}, Similarity: {similarity:.2f}]\n{text}\n"`,
with the defaults `"unknown"` and `f"Document {i+1}"` for missing keys. -/
def formattedResult (i : Nat) (r : SearchResult) : String :=
  "[Source: " ++ r.metadata.source.getD "unknown" ++
  ", Title: " ++ r.metadata.title.getD ("Document " ++ toString (i + 1)) ++
  ", Similarity: " ++ fmt2 r.similarity ++ "]\n" ++ r.text ++ "\n"

/-- The accumulation loop of lines 175-194: keep whole formatted results in
rank order, and `break` at the first one whose length would push the running
total past `max_length`. -/
def fcLoop (maxLen : Nat) : List SearchResult → Nat → Nat → List String
  | [], _, _ => []
  | r :: rest, i, cur =>
      let f := formattedResult i r
      if maxLen < cur + f.length then []
      else f :: fcLoop maxLen rest (i + 1) (cur + f.length)

/-- Embedding of `format_context` (lines 161-196): the kept parts joined by `"\n"`. -/
def format_context (results : List SearchResult) (max_length : Nat) : String :=
  String.intercalate "\n" (fcLoop max_length results 0 0)

/-! ### RAGPipeline.answer_question  (rag_pipeline.py lines 42-142) -/

/-- The response dictionary of `answer_question`.  `question` and
`context_length` are `Option` because the no-result and error responses omit
those keys.  `processing_time` is wall-clock time and is not modelled. -/
structure Answer where
  answer : String
  sources : List (String × String × String × ℚ)
  confidence : ℚ
  retrieved_documents : Nat
  question : Option String
  context_length : Option Nat
  error : Option String
deriving DecidableEq

/-- The terminal no-result response (lines 61-69). -/
def noInfoAnswer : Answer :=
  { answer := "I couldn't find any relevant information to answer your question.",
    sources := [], confidence := 0, retrieved_documents := 0,
    question := none, context_length := none, error := none }

/-- The terminal degraded response of the top-level handler (lines 135-142). -/
def errorAnswer (e : String) : Answer :=
  { answer := "I encountered an error while processing your question. Please try again.",
    sources := [], confidence := 0, retrieved_documents := 0,
    question := none, context_length := none, error := some e }

/-- Source attribution drawn from one result (lines 82-90): source name,
title, URL (with defaults) and similarity. -/
def sourceOf (r : SearchResult) : String × String × String × ℚ :=
  (r.metadata.source.getD "unknown", r.metadata.title.getD "Unknown",
   r.metadata.url.getD "", r.similarity)

/-- The `try` block of `answer_question` (lines 55-122): retrieval (`search`
is the outcome of `EmbeddingPipeline.search`, which either returns the
threshold-filtered results or raises), the zero-result short-circuit, context
formatting, generation (`generate` is the outcome of
`LLMModel.generate_with_context` on context and question), and response
assembly with confidence the mean similarity of the retrieved results. -/
def answerQuestionBody (search : Except String (List SearchResult))
    (generate : String → String → Except String String)
    (maxCtxLen : Nat) (question : String) : Except String Answer :=
  match search with
  | Except.error e => Except.error e
  | Except.ok results =>
      if results.isEmpty then Except.ok noInfoAnswer
      else
        let context := format_context results maxCtxLen
        match generate context question with
        | Except.error e => Except.error e
        | Except.ok ans =>
            Except.ok
              { answer := ans,
                sources := results.map sourceOf,
                confidence := (results.map (fun r => r.similarity)).sum / results.length,
                retrieved_documents := results.length,
                question := some question,
                context_length := some context.length,
                error := none }

/-- Embedding of `answer_question` (lines 42-142): the `try` block with the catch-all
`except` that converts any exception into the degraded response. -/
def answer_question (search : Except String (List SearchResult))
    (generate : String → String → Except String String)
    (maxCtxLen : Nat) (question : String) : Answer :=
  match answerQuestionBody search generate maxCtxLen question with
  | Except.ok a => a
  | Except.error e => errorAnswer e

/-- Embedding of `answer_question` composed with the real retrieval step
(`EmbeddingPipeline.search` = encode the query, then
`VectorDatabase.search_with_metadata`); `embed` is the external sentence
encoder. -/
def answerQuestionFull (db : VectorDB) (norm : List ℚ → List ℚ)
    (embed : String → List ℚ) (generate : String → String → Except String String)
    (maxCtxLen : Nat) (question : String) (kArg : Option Nat) : Answer :=
  answer_question (search_with_metadata db norm (embed question) kArg)
    generate maxCtxLen question

/-! ### EmbeddingModel.similarity  (embedding_model.py lines 162-180) -/

/-- Embedding of `np.linalg.norm`: the Euclidean norm of a vector. -/
noncomputable def npNorm (v : List ℝ) : ℝ :=
  Real.sqrt ((v.map (fun x => x * x)).sum)

/-- Embedding of `np.dot` on equal-length one-dimensional arrays. -/
def npDot (a b : List ℝ) : ℝ := (List.zipWith (fun x y => x * y) a b).sum

/-- Embedding of `EmbeddingModel.similarity`: L2-normalize both embeddings, then take the
dot product (lines 173-180). -/
noncomputable def similarity (a b : List ℝ) : ℝ :=
  npDot (a.map (fun x => x / npNorm a)) (b.map (fun x => x / npNorm b))

/-! ### Helper notions and lemmas -/

/-- Embedding of `pat` occurs as a contiguous substring of `s`. -/
def hasSub (pat : List Char) : List Char → Bool
  | [] => pat.isEmpty
  | c :: rest => pat.isPrefixOf (c :: rest) || hasSub pat rest

/-- Total length of a list of strings. -/
def sumLen (l : List String) : Nat := (l.map String.length).sum

theorem pyStrip_length_le (s : String) : (pyStrip s).length ≤ s.length := by
  show (((s.data.dropWhile isPyWs).reverse.dropWhile isPyWs).reverse).length ≤ s.data.length
  rw [List.length_reverse]
  calc ((s.data.dropWhile isPyWs).reverse.dropWhile isPyWs).length
      ≤ (s.data.dropWhile isPyWs).reverse.length :=
        (List.dropWhile_suffix isPyWs).sublist.length_le
    _ = (s.data.dropWhile isPyWs).length := List.length_reverse _
    _ ≤ s.data.length := (List.dropWhile_suffix isPyWs).sublist.length_le

theorem string_length_append (a b : String) :
    (a ++ b).length = a.length + b.length := by
  show (a.data ++ b.data).length = a.data.length + b.data.length
  exact List.length_append _ _

/-- Invariant of the sentence-accumulation loop: when every remaining
sentence fits in `mx`, every produced chunk has length at most `mx + 1`
(the extra `1` is the joining space, which line 81's overflow check does not
count). -/
theorem sentenceLoop_bound (mn mx : Nat) :
    ∀ (sents : List String) (acc : List String) (cur : String),
      (∀ s ∈ sents, s.length ≤ mx) →
      (∀ c ∈ acc, c.length ≤ mx + 1) →
      cur.length ≤ mx + 1 →
      ∀ c ∈ sentenceLoop mn mx sents acc cur, c.length ≤ mx + 1 := by
  intro sents
  induction sents with
  | nil =>
      intro acc cur _ hacc hcur c hc
      simp only [sentenceLoop] at hc
      split at hc
      · rcases List.mem_append.1 hc with h | h
        · exact hacc c h
        · rcases List.mem_singleton.1 h with rfl
          exact le_trans (pyStrip_length_le cur) hcur
      · exact hacc c hc
  | cons s rest ih =>
      intro acc cur hs hacc hcur c hc
      have hs0 : s.length ≤ mx := hs s (List.mem_cons_self _ _)
      have hsr : ∀ t ∈ rest, t.length ≤ mx := fun t ht => hs t (List.mem_cons_of_mem _ ht)
      simp only [sentenceLoop] at hc
      split at hc
      · rename_i hcond
        refine ih _ _ hsr ?_ (le_trans hs0 (Nat.le_succ mx)) c hc
        intro d hd
        split at hd
        · rcases List.mem_append.1 hd with h | h
          · exact hacc d h
          · rcases List.mem_singleton.1 h with rfl
            exact le_trans (pyStrip_length_le cur) hcur
        · exact hacc d hd
      · rename_i hcond
        refine ih _ _ hsr hacc ?_ c hc
        split
        · exact le_trans hs0 (Nat.le_succ mx)
        · rename_i hne
          have hfit : cur.length + s.length ≤ mx := by
            rcases Decidable.not_and_iff_or_not.1 hcond with h | h
            · exact Nat.le_of_not_lt h
            · exact absurd hne h
          calc (cur ++ " " ++ s).length
              = cur.length + 1 + s.length := by
                rw [string_length_append, string_length_append]
                rfl
            _ ≤ mx + 1 := by omega

/-- C1: for every non-empty input text, every chunk returned by `chunk_text`
has length at most `max_chunk_size` except possibly the document's last
chunk, and the concatenation of the returned chunks (ignoring overlap)
reconstructs the input content without omission.  FALSE: on
`"abcde. fghij. klmno."` with `max_chunk_size = 10` the first (non-final)
chunk is `"abcde fghij"` of length 11, and on `"abcdef. x. abcdef."` with
`min_chunk_size = 3` the sentence `"x"` is silently dropped (it sits in a
closed chunk below the minimum size), so no concatenation of the chunks
reconstructs the cleaned content. -/
theorem claim_C1_counterexample :
    (¬ ∀ c ∈ (chunk_text "abcde. fghij. klmno." 1000 200 1 10).dropLast,
        c.length ≤ 10) ∧
    chunk_text "abcde. fghij. klmno." 1000 200 1 10 = ["abcde fghij", "klmno"] ∧
    chunk_text "abcdef. x. abcdef." 1000 200 3 5 = ["abcdef", "abcdef"] ∧
    hasSub "x".data (cleanTextDefault "abcdef. x. abcdef.").data = true ∧
    hasSub "x".data (String.join (chunk_text "abcdef. x. abcdef." 1000 200 3 5)).data
      = false := by
  refine ⟨?_, by decide, by decide, by decide, by decide⟩
  intro h
  exact absurd (h "abcde fghij" (by decide)) (by decide)

/-- C1 (amended): for every non-empty input whose sentence pass produces at
least two chunks (so the word fallback is not taken) and all of whose
cleaned sentences fit in `max_chunk_size`, every returned chunk — last one
included — has length at most `max_chunk_size + 1` (the slack of one comes
from the joining space that the overflow check of line 81 does not count).
Chunks below `min_chunk_size` are dropped, so no reconstruction statement
holds. -/
theorem claim_C1_amended (text : String) (cs co mn mx : Nat)
    (hne : text ≠ "")
    (hsen : ∀ s ∈ sentencesOf (cleanTextDefault text), s.length ≤ mx)
    (htwo : 2 ≤ (sentenceLoop mn mx (sentencesOf (cleanTextDefault text)) [] "").length) :
    ∀ c ∈ chunk_text text cs co mn mx, c.length ≤ mx + 1 := by
  intro c hc
  rw [chunk_text, if_neg hne] at hc
  rw [segmentCleaned] at hc
  rw [if_neg (by omega)] at hc
  exact sentenceLoop_bound mn mx _ [] "" hsen (by intro d hd; cases hd) (by simp) c hc

theorem claim_C1_witness :
    ("abcde. fghij. klmno." ≠ "") ∧
    (∀ s ∈ sentencesOf (cleanTextDefault "abcde. fghij. klmno."), s.length ≤ 10) ∧
    2 ≤ (sentenceLoop 1 10 (sentencesOf (cleanTextDefault "abcde. fghij. klmno.")) [] "").length ∧
    ∀ c ∈ chunk_text "abcde. fghij. klmno." 1000 200 1 10, c.length ≤ 11 :=
  ⟨by decide, by decide, by decide,
    claim_C1_amended "abcde. fghij. klmno." 1000 200 1 10 (by decide) (by decide) (by decide)⟩

/-- C2: for every input text whose entire cleaned length is below
`min_chunk_size`, `chunk_text` returns an empty sequence.  The code violates
this (and its own unit test `test_utils.py` line 49, which asserts
`chunk_text("Short text", min_chunk_size=50)` returns zero chunks): the
word-based fallback of lines 92-108 appends the final chunk whenever it is
non-empty, with no minimum-size check, so the whole short text comes back as
one chunk. -/
theorem claim_C2_code_bug :
    chunk_text "Short text" 1000 200 50 2000 = ["Short text"] ∧
    (cleanTextDefault "Short text").length < 50 := by
  exact ⟨by decide, by decide⟩

/-- C10: `chunk_text` cleans before segmenting, so HTML-tag, URL and email
substrings of the raw input never appear in any chunk.  FALSE: tag removal
runs before HTML-entity unescaping, so unescaping can reintroduce a
tag-shaped substring.  On `"x. <a> &lt;a&gt; y."` the tag `<a>` — which is
also literally a substring of the raw input — appears in the returned
chunk. -/
theorem claim_C10_counterexample :
    chunk_text "x. <a> &lt;a&gt; y." 1000 200 100 2000 = ["x. <a> y."] ∧
    hasSub "<a>".data "x. <a> &lt;a&gt; y.".data = true ∧
    hasSub "<a>".data "x. <a> y.".data = true := by
  exact ⟨by decide, by decide, by decide⟩

/-- C10 (amended): `chunk_text` applies `clean_text` (all flags on) before
any segmentation: the chunks depend on the raw input only through its
cleaned form, so any two non-empty inputs with the same cleaned text chunk
identically.  (The stronger "cleaned substrings never appear" fails, per the
counterexample: entity unescaping can reintroduce tag-shaped text.) -/
theorem claim_C10_amended (t1 t2 : String) (cs co mn mx : Nat)
    (h1 : t1 ≠ "") (h2 : t2 ≠ "")
    (hclean : cleanTextDefault t1 = cleanTextDefault t2) :
    chunk_text t1 cs co mn mx = chunk_text t2 cs co mn mx := by
  rw [chunk_text, chunk_text, if_neg h1, if_neg h2, hclean]

theorem claim_C10_witness :
    ("a  b." ≠ "") ∧ ("a b." ≠ "") ∧
    cleanTextDefault "a  b." = cleanTextDefault "a b." ∧
    chunk_text "a  b." 1000 200 100 2000 = chunk_text "a b." 1000 200 100 2000 :=
  ⟨by decide, by decide, by decide,
    claim_C10_amended "a  b." "a b." 1000 200 100 2000 (by decide) (by decide) (by decide)⟩

theorem sumLen_nil : sumLen [] = 0 := rfl

theorem sumLen_cons (a : String) (l : List String) :
    sumLen (a :: l) = a.length + sumLen l := by
  simp [sumLen]

/-- Characterisation of the `format_context` accumulation loop: it emits the
formatted results of a prefix, whose total length fits the remaining budget,
and the prefix is either everything or stops exactly at the first result
that would overflow. -/
theorem fcLoop_spec (maxLen : Nat) :
    ∀ (l : List SearchResult) (i cur : Nat), cur ≤ maxLen →
      ∃ m, m ≤ l.length ∧
        fcLoop maxLen l i cur =
          ((List.enumFrom i l).map (fun p => formattedResult p.1 p.2)).take m ∧
        cur + sumLen (((List.enumFrom i l).map (fun p => formattedResult p.1 p.2)).take m)
          ≤ maxLen ∧
        (m = l.length ∨
          maxLen <
            cur + sumLen (((List.enumFrom i l).map
              (fun p => formattedResult p.1 p.2)).take (m + 1))) := by
  intro l
  induction l with
  | nil =>
      intro i cur hcur
      exact ⟨0, Nat.le_refl 0, rfl, by simpa [sumLen] using hcur, Or.inl rfl⟩
  | cons r rest ih =>
      intro i cur hcur
      by_cases h : maxLen < cur + (formattedResult i r).length
      · refine ⟨0, Nat.zero_le _, ?_, by simpa [sumLen] using hcur, Or.inr ?_⟩
        · simp only [fcLoop, if_pos h, List.take_zero]
        · simpa [List.enumFrom, sumLen] using h
      · have hfit : cur + (formattedResult i r).length ≤ maxLen := Nat.le_of_not_lt h
        obtain ⟨m, hmle, heq, hsum, hlast⟩ := ih (i + 1) (cur + (formattedResult i r).length) hfit
        refine ⟨m + 1, by simpa using Nat.succ_le_succ hmle, ?_, ?_, ?_⟩
        · simp only [fcLoop, if_neg h, List.enumFrom, List.map_cons, List.take_succ_cons]
          exact congrArg _ heq
        · simpa [List.enumFrom, sumLen_cons] using by omega
        · rcases hlast with h1 | h1
          · exact Or.inl (by simp [h1])
          · refine Or.inr ?_
            simpa [List.enumFrom, sumLen_cons] using by omega

/-- C8: for every list of ranked search results and every `max_length`
budget, `format_context` builds its output from whole formatted results
only, in the given rank order (a prefix of the formatted list), stopping
before any result whose inclusion would exceed `max_length`; it never
truncates a result mid-text, and under a tight budget it emits fewer results
than were retrieved (the prefix is either everything or ends exactly where
the next result would overflow the budget). -/
theorem claim_C8 (results : List SearchResult) (maxLen : Nat) :
    ∃ m, m ≤ results.length ∧
      format_context results maxLen =
        String.intercalate "\n"
          (((List.enumFrom 0 results).map (fun p => formattedResult p.1 p.2)).take m) ∧
      sumLen (((List.enumFrom 0 results).map (fun p => formattedResult p.1 p.2)).take m)
        ≤ maxLen ∧
      (m = results.length ∨
        maxLen <
          sumLen (((List.enumFrom 0 results).map
            (fun p => formattedResult p.1 p.2)).take (m + 1))) := by
  obtain ⟨m, hmle, heq, hsum, hlast⟩ := fcLoop_spec maxLen results 0 0 (Nat.zero_le _)
  exact ⟨m, hmle, congrArg _ heq, by simpa using hsum, by simpa using hlast⟩

theorem mem_insertScored (better : ℚ → ℚ → Bool) (x y : ℚ × Int) :
    ∀ l, y ∈ insertScored better x l → y = x ∨ y ∈ l := by
  intro l
  induction l with
  | nil =>
      intro h
      rcases List.mem_singleton.1 h with rfl
      exact Or.inl rfl
  | cons z zs ih =>
      intro h
      simp only [insertScored] at h
      split at h
      · rcases List.mem_cons.1 h with rfl | h
        · exact Or.inl rfl
        · exact Or.inr h
      · rcases List.mem_cons.1 h with rfl | h
        · exact Or.inr (List.mem_cons_self _ _)
        · rcases ih h with h1 | h1
          · exact Or.inl h1
          · exact Or.inr (List.mem_cons_of_mem _ h1)

theorem mem_sortScored (better : ℚ → ℚ → Bool) (y : ℚ × Int) :
    ∀ l, y ∈ sortScored better l → y ∈ l := by
  intro l
  induction l with
  | nil => intro h; cases h
  | cons z zs ih =>
      intro h
      simp only [sortScored] at h
      rcases mem_insertScored better z y _ h with rfl | h1
      · exact List.mem_cons_self _ _
      · exact List.mem_cons_of_mem _ (ih h1)

theorem mem_faissFlatSearch (score : List ℚ → ℚ) (better : ℚ → ℚ → Bool)
    (padDist : ℚ) (vectors : List (List ℚ)) (k : Nat) (p : ℚ × Int)
    (hp : p ∈ faissFlatSearch score better padDist vectors k) :
    (0 ≤ p.2 ∧ p.2 < (vectors.length : Int)) ∨ p = (padDist, -1) := by
  unfold faissFlatSearch at hp
  rcases List.mem_append.1 hp with h | h
  · have h2 := mem_sortScored better p _ (List.mem_of_mem_take h)
    obtain ⟨j, hj, rfl⟩ := List.mem_map.1 h2
    have hjlt := List.mem_range.1 hj
    refine Or.inl ⟨?_, ?_⟩
    · show (0 : Int) ≤ (j : Int)
      exact Int.natCast_nonneg j
    · show ((j : Int)) < (vectors.length : Int)
      exact_mod_cast hjlt
  · exact Or.inr (List.eq_of_mem_replicate h)

theorem mem_vdbSearch (db : VectorDB) (norm : List ℚ → List ℚ) (q : List ℚ)
    (kArg : Option Nat) (p : ℚ × Int) (hp : p ∈ vdbSearch db norm q kArg) :
    (0 ≤ p.2 ∧ p.2 < (db.vectors.length : Int)) ∨
    (p.2 = -1 ∧
      ((db.index_type = "IndexFlatL2" ∧ p.1 = fltMax) ∨
       (db.index_type ≠ "IndexFlatL2" ∧ p.1 = -fltMax))) := by
  dsimp only [vdbSearch] at hp
  by_cases hL2 : db.index_type = "IndexFlatL2"
  · rw [if_pos hL2] at hp
    rcases mem_faissFlatSearch _ _ _ _ _ p hp with h | hpad
    · exact Or.inl h
    · exact Or.inr ⟨by rw [hpad], Or.inl ⟨hL2, by rw [hpad]⟩⟩
  · rw [if_neg hL2] at hp
    rcases mem_faissFlatSearch _ _ _ _ _ p hp with h | hpad
    · exact Or.inl h
    · exact Or.inr ⟨by rw [hpad], Or.inr ⟨hL2, by rw [hpad]⟩⟩

theorem get_document_ok (db : VectorDB) (idx : Int) (d : String) (m : Metadata)
    (h : get_document db idx = Except.ok (d, m)) :
    idx < (db.documents.length : Int) ∧
    pyGet db.documents idx = some d ∧ pyGet db.metadata idx = some m := by
  unfold get_document at h
  split at h
  · cases h
  · rename_i hlt
    refine ⟨Int.not_le.1 hlt, ?_⟩
    split at h
    · rename_i hd hm
      cases h
      exact ⟨hd, hm⟩
    · cases h

/-- Every result produced by the `search_with_metadata` loop meets the
similarity threshold: the filter at line 244 admits a result only when
`similarity >= self.similarity_threshold`. -/
theorem swmLoop_threshold (db : VectorDB) :
    ∀ (pairs : List (ℚ × Int)) (i : Nat) (rs : List SearchResult),
      swmLoop db pairs i = Except.ok rs →
      ∀ r ∈ rs, db.similarity_threshold ≤ r.similarity := by
  intro pairs
  induction pairs with
  | nil =>
      intro i rs h r hr
      simp only [swmLoop] at h
      cases h
      cases hr
  | cons p rest ih =>
      obtain ⟨dist, idx⟩ := p
      intro i rs h r hr
      simp only [swmLoop] at h
      by_cases hlt : idx < (db.documents.length : Int)
      · rw [if_pos hlt] at h
        cases hget : get_document db idx with
        | error e => rw [hget] at h; cases h
        | ok dm =>
            obtain ⟨d, md⟩ := dm
            rw [hget] at h
            dsimp only at h
            cases hrec : swmLoop db rest (i + 1) with
            | error e => rw [hrec] at h; cases h
            | ok rs2 =>
                rw [hrec] at h
                dsimp only at h
                by_cases hth : db.similarity_threshold ≤ simOf db dist
                · rw [if_pos hth] at h
                  cases h
                  rcases List.mem_cons.1 hr with rfl | hr2
                  · exact hth
                  · exact ih (i + 1) rs2 hrec r hr2
                · rw [if_neg hth] at h
                  cases h
                  exact ih (i + 1) _ hrec r hr
      · rw [if_neg hlt] at h
        exact ih (i + 1) rs h r hr

/-- Every result produced by the loop names a genuinely stored position and
carries exactly the text/metadata stored there, provided every incoming pad
row is below the threshold. -/
theorem swmLoop_stored (db : VectorDB) :
    ∀ (pairs : List (ℚ × Int)) (i : Nat),
      (∀ p ∈ pairs, 0 ≤ p.2 ∨ simOf db p.1 < db.similarity_threshold) →
      ∀ rs, swmLoop db pairs i = Except.ok rs →
      ∀ r ∈ rs, 0 ≤ r.index ∧ r.index < (db.documents.length : Int) ∧
        pyGet db.documents r.index = some r.text ∧
        pyGet db.metadata r.index = some r.metadata := by
  intro pairs
  induction pairs with
  | nil =>
      intro i _ rs h r hr
      simp only [swmLoop] at h
      cases h
      cases hr
  | cons p rest ih =>
      obtain ⟨dist, idx⟩ := p
      intro i hgood rs h r hr
      have hgood0 := hgood (dist, idx) (List.mem_cons_self _ _)
      have hgoodr : ∀ p ∈ rest, 0 ≤ p.2 ∨ simOf db p.1 < db.similarity_threshold :=
        fun p hp => hgood p (List.mem_cons_of_mem _ hp)
      simp only [swmLoop] at h
      by_cases hlt : idx < (db.documents.length : Int)
      · rw [if_pos hlt] at h
        cases hget : get_document db idx with
        | error e => rw [hget] at h; cases h
        | ok dm =>
            obtain ⟨d, md⟩ := dm
            rw [hget] at h
            dsimp only at h
            cases hrec : swmLoop db rest (i + 1) with
            | error e => rw [hrec] at h; cases h
            | ok rs2 =>
                rw [hrec] at h
                dsimp only at h
                by_cases hth : db.similarity_threshold ≤ simOf db dist
                · rw [if_pos hth] at h
                  cases h
                  rcases List.mem_cons.1 hr with rfl | hr2
                  · have hidx : (0 : Int) ≤ idx := by
                      rcases hgood0 with h0 | h0
                      · exact h0
                      · exact absurd hth (not_le.2 h0)
                    obtain ⟨hd1, hd2, hd3⟩ := get_document_ok db idx _ _ hget
                    exact ⟨hidx, hd1, hd2, hd3⟩
                  · exact ih (i + 1) hgoodr rs2 hrec r hr2
                · rw [if_neg hth] at h
                  cases h
                  exact ih (i + 1) hgoodr _ hrec r hr
      · rw [if_neg hlt] at h
        exact ih (i + 1) hgoodr rs h r hr

/-- A database used to exhibit the zero-result outcome: one stored entry,
threshold `2` (above any inner product of the stored unit data). -/
def c3Meta : Metadata := { source := some "s", title := some "t", url := some "u", idx := none }

def c3FilterDb : VectorDB :=
  { index_type := "IndexFlatIP", top_k := 5, similarity_threshold := 2,
    normalize_L2 := false, vectors := [[1]], documents := ["doc"], metadata := [c3Meta] }

def c3WitnessDb : VectorDB :=
  { index_type := "IndexFlatIP", top_k := 5, similarity_threshold := 1/2,
    normalize_L2 := false, vectors := [[1]], documents := ["doc"], metadata := [c3Meta] }

def c3WitnessResult : SearchResult :=
  { index := 0, text := "doc", metadata := c3Meta, similarity := 1, distance := 1, rank := 1 }

/-- C3: for every query embedding, every index state, and every `k`, each
result returned by `search_with_metadata` has a similarity score at or above
the configured similarity threshold; and the post-filter can legitimately
yield zero results even when `k > 0` entries were scanned (second conjunct:
a database with one stored entry, scanned with `k = 1`, returns no
results because its threshold exceeds the entry's similarity). -/
theorem claim_C3 :
    (∀ (db : VectorDB) (norm : List ℚ → List ℚ) (q : List ℚ) (kArg : Option Nat)
        (rs : List SearchResult),
      search_with_metadata db norm q kArg = Except.ok rs →
      ∀ r ∈ rs, db.similarity_threshold ≤ r.similarity) ∧
    (c3FilterDb.vectors.length = 1 ∧
      search_with_metadata c3FilterDb (fun v => v) [1] (some 1) = Except.ok []) := by
  constructor
  · intro db norm q kArg rs h r hr
    exact swmLoop_threshold db _ 0 rs h r hr
  · exact ⟨by decide, by decide⟩

theorem claim_C3_witness :
    search_with_metadata c3WitnessDb (fun v => v) [1] (some 3) =
      Except.ok [c3WitnessResult] ∧
    c3WitnessDb.similarity_threshold ≤ c3WitnessResult.similarity :=
  ⟨by decide,
    claim_C3.1 c3WitnessDb (fun v => v) [1] (some 3) [c3WitnessResult] (by decide)
      c3WitnessResult (List.mem_singleton.2 rfl)⟩

/-- C4: for every index state with a nonnegative similarity threshold and
every `k` (in particular `k` exceeding the number of stored entries), every
result returned by `search_with_metadata` corresponds to a genuinely stored
entry: its index names a stored position (`0 ≤ index < count`) and its text
and metadata are exactly the entries stored at that position; the library's
sentinel pad rows (index `-1`, distance `∓FLT_MAX`) never reach the output,
because their converted similarity is far below any nonnegative threshold. -/
theorem claim_C4 (db : VectorDB) (norm : List ℚ → List ℚ) (q : List ℚ)
    (kArg : Option Nat) (rs : List SearchResult)
    (hth : 0 ≤ db.similarity_threshold)
    (hok : search_with_metadata db norm q kArg = Except.ok rs) :
    ∀ r ∈ rs, 0 ≤ r.index ∧ r.index < (db.documents.length : Int) ∧
      pyGet db.documents r.index = some r.text ∧
      pyGet db.metadata r.index = some r.metadata := by
  refine swmLoop_stored db _ 0 ?_ rs hok
  intro p hp
  rcases mem_vdbSearch db norm q kArg p hp with ⟨h0, _⟩ | ⟨_, hpad⟩
  · exact Or.inl h0
  · refine Or.inr ?_
    rcases hpad with ⟨hL2, hv⟩ | ⟨hL2, hv⟩
    · rw [simOf, if_pos hL2, hv]
      calc (1 : ℚ) - fltMax < 0 := by decide
        _ ≤ db.similarity_threshold := hth
    · rw [simOf, if_neg hL2, hv]
      calc -fltMax < 0 := by decide
        _ ≤ db.similarity_threshold := hth

def c4Db : VectorDB :=
  { index_type := "IndexFlatIP", top_k := 5, similarity_threshold := 1/2,
    normalize_L2 := false, vectors := [[1]], documents := ["docA"],
    metadata := [c3Meta] }

def c4Result : SearchResult :=
  { index := 0, text := "docA", metadata := c3Meta, similarity := 1,
    distance := 1, rank := 1 }

theorem claim_C4_witness :
    (0 ≤ c4Db.similarity_threshold) ∧
    search_with_metadata c4Db (fun v => v) [1] (some 3) = Except.ok [c4Result] ∧
    (0 ≤ c4Result.index ∧ c4Result.index < (c4Db.documents.length : Int) ∧
      pyGet c4Db.documents c4Result.index = some c4Result.text ∧
      pyGet c4Db.metadata c4Result.index = some c4Result.metadata) :=
  ⟨by decide, by decide,
    claim_C4 c4Db (fun v => v) [1] (some 3) [c4Result] (by decide) (by decide)
      c4Result (List.mem_singleton.2 rfl)⟩

theorem pyGet_nil {α : Type} (i : Int) : pyGet ([] : List α) i = none := by
  unfold pyGet
  split
  · rfl
  · split
    · rfl
    · rfl

/-- Any successful `answerQuestionBody` outcome carries no `error` key: the
no-result response and the assembled success response both omit it. -/
theorem body_ok_error_none (search : Except String (List SearchResult))
    (generate : String → String → Except String String)
    (maxCtxLen : Nat) (question : String) (a : Answer)
    (h : answerQuestionBody search generate maxCtxLen question = Except.ok a) :
    a.error = none := by
  unfold answerQuestionBody at h
  cases search with
  | error e => cases h
  | ok results =>
      dsimp only at h
      by_cases hemp : results.isEmpty
      · rw [if_pos hemp] at h
        cases h
        rfl
      · rw [if_neg hemp] at h
        cases hgen : generate (format_context results maxCtxLen) question with
        | error e => rw [hgen] at h; cases h
        | ok ans =>
            rw [hgen] at h
            dsimp only at h
            cases h
            rfl

/-- C5: for every question and every retrieval/formatting/generation
behaviour, `answer_question` never raises: it is a total function into
`Answer` (the `try` body, which can fail, is wrapped by the catch-all of
lines 124-142), and whenever the body fails with message `e` the returned
degraded answer is well-formed, with the "I encountered an error" text,
confidence `0.0` and the `error` field carrying `e`; on success the returned
answer carries no error field. -/
theorem claim_C5 (search : Except String (List SearchResult))
    (generate : String → String → Except String String)
    (maxCtxLen : Nat) (question : String) :
    (∃ a, answerQuestionBody search generate maxCtxLen question = Except.ok a ∧
      answer_question search generate maxCtxLen question = a ∧ a.error = none) ∨
    (∃ e, answerQuestionBody search generate maxCtxLen question = Except.error e ∧
      answer_question search generate maxCtxLen question = errorAnswer e ∧
      (answer_question search generate maxCtxLen question).answer =
        "I encountered an error while processing your question. Please try again." ∧
      (answer_question search generate maxCtxLen question).confidence = 0 ∧
      (answer_question search generate maxCtxLen question).error = some e) := by
  cases hbody : answerQuestionBody search generate maxCtxLen question with
  | ok a =>
      refine Or.inl ⟨a, rfl, ?_, body_ok_error_none _ _ _ _ a hbody⟩
      unfold answer_question
      rw [hbody]
  | error e =>
      have hq : answer_question search generate maxCtxLen question = errorAnswer e := by
        unfold answer_question
        rw [hbody]
      exact Or.inr ⟨e, rfl, hq, by rw [hq]; rfl, by rw [hq]; rfl, by rw [hq]; rfl⟩

/-- On an index whose `documents` array is empty, the result-assembly loop
either returns no results (every FAISS row is skipped) or raises: a sentinel
`-1` row passes the `index < len(documents)` test (`-1 < 0`), and
`documents[-1]` on an empty list raises `IndexError`. -/
theorem swmLoop_empty (db : VectorDB) (hdocs : db.documents = []) :
    ∀ (pairs : List (ℚ × Int)) (i : Nat),
      swmLoop db pairs i = Except.ok [] ∨ ∃ e, swmLoop db pairs i = Except.error e := by
  intro pairs
  induction pairs with
  | nil => intro i; exact Or.inl rfl
  | cons p rest ih =>
      obtain ⟨dist, idx⟩ := p
      intro i
      simp only [swmLoop]
      by_cases hlt : idx < (db.documents.length : Int)
      · rw [if_pos hlt]
        have hget : get_document db idx = Except.error "IndexError" := by
          unfold get_document
          rw [if_neg (by omega)]
          rw [hdocs, pyGet_nil]
        rw [hget]
        exact Or.inr ⟨"IndexError", rfl⟩
      · rw [if_neg hlt]
        exact ih (i + 1)

theorem answer_question_ok_nil (generate : String → String → Except String String)
    (maxCtxLen : Nat) (question : String) :
    answer_question (Except.ok []) generate maxCtxLen question = noInfoAnswer := rfl

theorem answer_question_search_error (e : String)
    (generate : String → String → Except String String)
    (maxCtxLen : Nat) (question : String) :
    answer_question (Except.error e) generate maxCtxLen question = errorAnswer e := rfl

/-- C6: whenever retrieval yields zero results, `answer_question` returns the
"no relevant information" answer, with confidence `0.0`, zero retrieved
documents, and no dependence whatsoever on the language model (first
conjunct); and on an index with zero stored entries the full pipeline also
returns confidence `0.0`, zero retrieved documents, and never consults the
language model (second conjunct — on an empty index the FAISS sentinel `-1`
actually makes `documents[-1]` raise `IndexError`, which the catch-all turns
into the degraded answer: the observable fields asserted by the claim hold in
both the empty-result and the raising path). -/
theorem claim_C6 :
    (∀ (generate : String → String → Except String String)
        (maxCtxLen : Nat) (question : String),
      answer_question (Except.ok []) generate maxCtxLen question = noInfoAnswer ∧
      noInfoAnswer.confidence = 0 ∧ noInfoAnswer.retrieved_documents = 0 ∧
      ∀ g2, answer_question (Except.ok []) g2 maxCtxLen question =
            answer_question (Except.ok []) generate maxCtxLen question) ∧
    (∀ (db : VectorDB) (norm : List ℚ → List ℚ) (embed : String → List ℚ)
        (generate : String → String → Except String String)
        (maxCtxLen : Nat) (question : String) (kArg : Option Nat),
      db.documents = [] →
      (answerQuestionFull db norm embed generate maxCtxLen question kArg).confidence = 0 ∧
      (answerQuestionFull db norm embed generate maxCtxLen question kArg).retrieved_documents
        = 0 ∧
      ∀ g2, answerQuestionFull db norm embed g2 maxCtxLen question kArg =
            answerQuestionFull db norm embed generate maxCtxLen question kArg) := by
  constructor
  · intro generate maxCtxLen question
    exact ⟨rfl, rfl, rfl, fun g2 => rfl⟩
  · intro db norm embed generate maxCtxLen question kArg hdocs
    rcases swmLoop_empty db hdocs (vdbSearch db norm (embed question) kArg) 0 with hok | ⟨e, herr⟩
    · have hs : search_with_metadata db norm (embed question) kArg = Except.ok [] := hok
      unfold answerQuestionFull
      rw [hs]
      exact ⟨rfl, rfl, fun g2 => rfl⟩
    · have hs : search_with_metadata db norm (embed question) kArg = Except.error e := herr
      unfold answerQuestionFull
      rw [hs]
      exact ⟨rfl, rfl, fun g2 => rfl⟩

def c6Db : VectorDB :=
  { index_type := "IndexFlatIP", top_k := 5, similarity_threshold := 7/10,
    normalize_L2 := false, vectors := [], documents := [], metadata := [] }

theorem claim_C6_witness :
    (c6Db.documents = []) ∧
    ((answerQuestionFull c6Db (fun v => v) (fun _ => [1])
        (fun _ _ => Except.ok "unused") 4000 "q" (some 2)).confidence = 0 ∧
      (answerQuestionFull c6Db (fun v => v) (fun _ => [1])
        (fun _ _ => Except.ok "unused") 4000 "q" (some 2)).retrieved_documents = 0 ∧
      ∀ g2, answerQuestionFull c6Db (fun v => v) (fun _ => [1]) g2 4000 "q" (some 2) =
            answerQuestionFull c6Db (fun v => v) (fun _ => [1])
              (fun _ _ => Except.ok "unused") 4000 "q" (some 2)) :=
  ⟨rfl, claim_C6.2 c6Db (fun v => v) (fun _ => [1]) (fun _ _ => Except.ok "unused")
    4000 "q" (some 2) rfl⟩

/-- C7: `add_documents` with mismatched document/embedding counts fails with
an error raised before any mutation, so the index and its parallel arrays
are unchanged (in this functional embedding, no new state is produced at
all); with matching counts the entries are appended: the documents array is
extended by exactly the given documents and the index by exactly as many
vectors, with the configuration untouched. -/
theorem claim_C7 (db : VectorDB) (documents : List String)
    (embeddings : List (List ℚ)) (metadata : Option (List Metadata))
    (norm : List ℚ → List ℚ) :
    (documents.length ≠ embeddings.length →
      add_documents db documents embeddings metadata norm =
        Except.error "Number of documents must match number of embeddings") ∧
    (documents.length = embeddings.length →
      ∃ db2, add_documents db documents embeddings metadata norm = Except.ok db2 ∧
        db2.documents = db.documents ++ documents ∧
        db2.vectors.length = db.vectors.length + embeddings.length ∧
        db2.metadata.length = db.metadata.length +
          (match metadata with
            | some ms => if ms.isEmpty then documents.length else ms.length
            | none => documents.length) ∧
        db2.index_type = db.index_type ∧
        db2.similarity_threshold = db.similarity_threshold) := by
  constructor
  · intro hne
    unfold add_documents
    rw [if_pos hne]
  · intro heq
    unfold add_documents
    rw [if_neg (by omega)]
    refine ⟨_, rfl, rfl, ?_, ?_, rfl, rfl⟩
    · by_cases hn : db.normalize_L2
      · simp [hn]
      · simp [hn]
    · cases metadata with
      | none => simp [defaultMetadata]
      | some ms =>
          by_cases hms : ms.isEmpty
          · simp [hms, defaultMetadata]
          · simp [hms]

def c7Db : VectorDB :=
  { index_type := "IndexFlatIP", top_k := 5, similarity_threshold := 7/10,
    normalize_L2 := true, vectors := [], documents := [], metadata := [] }

theorem claim_C7_witness :
    ((["a"] : List String).length ≠ ([] : List (List ℚ)).length ∧
      add_documents c7Db ["a"] [] none (fun v => v) =
        Except.error "Number of documents must match number of embeddings") ∧
    ((["a"] : List String).length = [[1]].length ∧
      ∃ db2, add_documents c7Db ["a"] [[1]] none (fun v => v) = Except.ok db2 ∧
        db2.documents = c7Db.documents ++ ["a"] ∧
        db2.vectors.length = c7Db.vectors.length + 1 ∧
        db2.metadata.length = c7Db.metadata.length + 1 ∧
        db2.index_type = c7Db.index_type ∧
        db2.similarity_threshold = c7Db.similarity_threshold) :=
  ⟨⟨by decide, (claim_C7 c7Db ["a"] [] none (fun v => v)).1 (by decide)⟩,
    ⟨rfl, (claim_C7 c7Db ["a"] [[1]] none (fun v => v)).2 rfl⟩⟩

theorem sumSq_nonneg (a : List ℝ) : 0 ≤ (a.map (fun x => x * x)).sum := by
  apply List.sum_nonneg
  intro x hx
  obtain ⟨y, _, rfl⟩ := List.mem_map.1 hx
  exact mul_self_nonneg y

theorem npNorm_nonneg (a : List ℝ) : 0 ≤ npNorm a := Real.sqrt_nonneg _

theorem npNorm_sq (a : List ℝ) : npNorm a ^ 2 = (a.map (fun x => x * x)).sum :=
  Real.sq_sqrt (sumSq_nonneg a)

/-- Scalars pulled out of the normalized dot product: `similarity` is the
raw dot product divided by the product of the two norms. -/
theorem npDot_map_div (c d : ℝ) :
    ∀ (a b : List ℝ),
      npDot (a.map (fun x => x / c)) (b.map (fun x => x / d)) = npDot a b / (c * d) := by
  intro a
  induction a with
  | nil =>
      intro b
      simp [npDot]
  | cons x a2 ih =>
      intro b
      cases b with
      | nil => simp [npDot]
      | cons y b2 =>
          simp only [npDot, List.map_cons, List.zipWith_cons_cons, List.sum_cons] at *
          rw [ih b2, div_mul_div_comm, div_add_div_same]

theorem similarity_eq_div (a b : List ℝ) :
    similarity a b = npDot a b / (npNorm a * npNorm b) :=
  npDot_map_div (npNorm a) (npNorm b) a b

theorem npDot_eq_sum : ∀ (a b : List ℝ), a.length = b.length →
    npDot a b = ∑ i ∈ Finset.range a.length, a.getD i 0 * b.getD i 0 := by
  intro a
  induction a with
  | nil =>
      intro b _
      simp [npDot]
  | cons x a2 ih =>
      intro b hlen
      cases b with
      | nil => cases hlen
      | cons y b2 =>
          have hlen2 : a2.length = b2.length := by
            simpa using hlen
          simp only [npDot, List.zipWith_cons_cons, List.sum_cons, List.length_cons]
          rw [Finset.sum_range_succ']
          simp only [List.getD_cons_succ, List.getD_cons_zero]
          rw [← ih b2 hlen2]
          simp [npDot]
          ring

theorem sumSq_eq_sum (a : List ℝ) :
    (a.map (fun x => x * x)).sum = ∑ i ∈ Finset.range a.length, a.getD i 0 * a.getD i 0 := by
  induction a with
  | nil => simp
  | cons x a2 ih =>
      simp only [List.map_cons, List.sum_cons, List.length_cons]
      rw [Finset.sum_range_succ']
      simp only [List.getD_cons_succ, List.getD_cons_zero]
      rw [← ih]
      ring

/-- Cauchy–Schwarz for the list dot product. -/
theorem npDot_sq_le (a b : List ℝ) (hlen : a.length = b.length) :
    npDot a b ^ 2 ≤ (a.map (fun x => x * x)).sum * (b.map (fun x => x * x)).sum := by
  rw [npDot_eq_sum a b hlen, sumSq_eq_sum a, sumSq_eq_sum b, ← hlen]
  have h := Finset.sum_mul_sq_le_sq_mul_sq (Finset.range a.length)
    (fun i => a.getD i 0) (fun i => b.getD i 0)
  calc (∑ i ∈ Finset.range a.length, a.getD i 0 * b.getD i 0) ^ 2
      ≤ (∑ i ∈ Finset.range a.length, a.getD i 0 ^ 2) *
        (∑ i ∈ Finset.range a.length, b.getD i 0 ^ 2) := h
    _ = (∑ i ∈ Finset.range a.length, a.getD i 0 * a.getD i 0) *
        (∑ i ∈ Finset.range a.length, b.getD i 0 * b.getD i 0) := by
          congr 1 <;> exact Finset.sum_congr rfl (fun i _ => by ring)

/-- C9: for every pair of nonzero embedding vectors, `similarity` returns
the cosine similarity and the returned scalar lies in `[0, 1]`.  FALSE: the
cosine of opposite vectors is negative.  At the nonzero vectors `[1, 0]` and
`[-1, 0]` the function returns `-1`, which is not in `[0, 1]`. -/
theorem claim_C9_counterexample :
    similarity [(1 : ℝ), 0] [(-1 : ℝ), 0] = -1 ∧
    ¬ (0 ≤ similarity [(1 : ℝ), 0] [(-1 : ℝ), 0]) := by
  have h : similarity [(1 : ℝ), 0] [(-1 : ℝ), 0] = -1 := by
    rw [similarity_eq_div]
    have h1 : npNorm [(1 : ℝ), 0] = 1 := by
      unfold npNorm
      norm_num
    have h2 : npNorm [(-1 : ℝ), 0] = 1 := by
      unfold npNorm
      norm_num
    rw [h1, h2]
    norm_num [npDot]
  refine ⟨h, ?_⟩
  rw [h]
  norm_num

/-- C9 (amended): for every pair of nonzero embedding vectors of equal
dimension, `similarity` returns the cosine similarity — the dot product of
the inputs divided by the product of their norms, equivalently the dot
product of the L2-normalized vectors — and the returned scalar lies in
`[-1, 1]` (not `[0, 1]`: opposite directions give negative cosine). -/
theorem claim_C9_amended (a b : List ℝ) (hlen : a.length = b.length)
    (ha : npNorm a ≠ 0) (hb : npNorm b ≠ 0) :
    similarity a b = npDot a b / (npNorm a * npNorm b) ∧
    -1 ≤ similarity a b ∧ similarity a b ≤ 1 := by
  have ha0 : 0 < npNorm a := lt_of_le_of_ne (npNorm_nonneg a) (Ne.symm ha)
  have hb0 : 0 < npNorm b := lt_of_le_of_ne (npNorm_nonneg b) (Ne.symm hb)
  have hab : 0 < npNorm a * npNorm b := mul_pos ha0 hb0
  have hsq : npDot a b ^ 2 ≤ (npNorm a * npNorm b) ^ 2 := by
    rw [mul_pow, npNorm_sq, npNorm_sq]
    exact npDot_sq_le a b hlen
  have habs : |npDot a b| ≤ npNorm a * npNorm b := by
    calc |npDot a b| = Real.sqrt (npDot a b ^ 2) := (Real.sqrt_sq_eq_abs _).symm
      _ ≤ Real.sqrt ((npNorm a * npNorm b) ^ 2) := Real.sqrt_le_sqrt hsq
      _ = |npNorm a * npNorm b| := Real.sqrt_sq_eq_abs _
      _ = npNorm a * npNorm b := abs_of_pos hab
  obtain ⟨hlow, hhigh⟩ := abs_le.1 habs
  refine ⟨similarity_eq_div a b, ?_, ?_⟩
  · rw [similarity_eq_div, le_div_iff₀ hab]
    linarith
  · rw [similarity_eq_div, div_le_one hab]
    exact hhigh

theorem claim_C9_witness :
    (([(1 : ℝ), 0] : List ℝ).length = ([(0 : ℝ), 1] : List ℝ).length) ∧
    npNorm [(1 : ℝ), 0] ≠ 0 ∧ npNorm [(0 : ℝ), 1] ≠ 0 ∧
    (similarity [(1 : ℝ), 0] [(0 : ℝ), 1] =
        npDot [(1 : ℝ), 0] [(0 : ℝ), 1] / (npNorm [(1 : ℝ), 0] * npNorm [(0 : ℝ), 1]) ∧
      -1 ≤ similarity [(1 : ℝ), 0] [(0 : ℝ), 1] ∧
      similarity [(1 : ℝ), 0] [(0 : ℝ), 1] ≤ 1) := by
  have h1 : npNorm [(1 : ℝ), 0] = 1 := by
    unfold npNorm
    norm_num
  have h2 : npNorm [(0 : ℝ), 1] = 1 := by
    unfold npNorm
    norm_num
  have hn1 : npNorm [(1 : ℝ), 0] ≠ 0 := by rw [h1]; norm_num
  have hn2 : npNorm [(0 : ℝ), 1] ≠ 0 := by rw [h2]; norm_num
  exact ⟨rfl, hn1, hn2, claim_C9_amended _ _ rfl hn1 hn2⟩
